import Mathlib

/-!
Shallow embedding of the DOS mouse driver interface of dosbox-staging,
translated from src/hardware/mouse/mouseif_dos_driver.cpp.

Modelling conventions:
- C++ `float` values are modelled as exact rationals (`ℚ`); the fields that
  hold them in the source (`pos_x`, mickey deltas, sensitivity coefficients,
  mickeys-per-pixel ratios) are rational fields here.
- Machine integers are modelled as `Nat` (unsigned) or `Int` (signed), with
  explicit wrapping casts `u16`/`i16` at the places where the source performs
  a `static_cast` to a narrower type.
- External collaborators (video BIOS reads, pixel get/put, IO ports, the PIC,
  the rate-pacing sink, logging) are modelled through an `Env` record when the
  driver reads from them; writes to them have no driver-visible state and are
  noted in comments where the source performs them.
- The C++ arrays (three-button counters, 16-word cursor masks, the 256-byte
  saved background) are modelled as `List Nat` of the corresponding length.
-/

namespace MouseDos

/-- `static_cast<uint16_t>` of a signed integer value (wrap modulo 2^16). -/
def u16 (x : Int) : Nat := (x % 65536).toNat

/-- `static_cast<int16_t>` of an integer value (wrap into [-32768, 32767]). -/
def i16 (x : Int) : Int := (x + 32768) % 65536 - 32768

/-- Source `signed_to_reg8`: `x >= 0 ? x : 0x100 + x`. -/
def signed_to_reg8 (x : Int) : Nat := if 0 ≤ x then x.toNat else (0x100 + x).toNat

/-- Source `signed_to_reg16`: `x >= 0 ? x : 0x10000 + x`. -/
def signed_to_reg16 (x : Int) : Nat := if 0 ≤ x then x.toNat else (0x10000 + x).toNat

/-- Source `reg_to_signed16`: if bit 15 is set, `x - 0x10000`, else `x`.
The argument is a 16-bit register value (< 65536). -/
def reg_to_signed16 (x : Nat) : Int := if 32768 ≤ x then (x : Int) - 0x10000 else (x : Int)

/-- C++ `std::lround` on a rational: round half away from zero.  Stated
directly on the numerator/denominator with integer floor division so that it
evaluates by kernel reduction; `lround_eq` below proves it equal to the
textbook form `if 0 ≤ q then ⌊q + 1/2⌋ else ⌈q - 1/2⌉`. -/
def lround (q : ℚ) : Int :=
  if 0 ≤ q.num then (2 * q.num + q.den) / (2 * q.den)
  else -((-2 * q.num + q.den) / (2 * q.den))

/-- Modelled from the spec: `clamp_to_int8` (include/math_utils.h is not part
of the provided sources); the spec states wheel ticks are "summed into an
8-bit clamped counter" and pending wheel movement is "clamped to 8-bit signed
range", i.e. clamped into [-128, 127]. -/
def clamp_to_int8 (x : Int) : Int := max (-128) (min 127 x)

/-- C++ `std::clamp` on rationals: `v < lo ? lo : (hi < v ? hi : v)`. -/
def rclamp (v lo hi : ℚ) : ℚ := if v < lo then lo else if hi < v then hi else v

/-- C++ `std::clamp` on integers. -/
def iclamp (v lo hi : Int) : Int := if v < lo then lo else if hi < v then hi else v

/-- Source enum `MouseCursor`. -/
inductive MouseCursor where
  | Software
  | Hardware
  | Text
deriving DecidableEq

/-- Saved cursor background (sub-structure `background` of the driver state).
`data` is the 256-byte pixel buffer (2 bytes used in text mode). -/
structure Background where
  enabled : Bool
  pos_x : Nat
  pos_y : Nat
  data : List Nat
deriving DecidableEq

/-- The driver state block (C++ `static struct { ... } state`), the structure
saved/loaded wholesale by INT 33h functions 0x15/0x16/0x17.  Field order and
names follow the source.  The three-button arrays are length-3 lists, the user
cursor masks length-16 lists. -/
structure DriverState where
  enabled : Bool
  wheel_api : Bool
  times_pressed : List Nat
  times_released : List Nat
  last_released_x : List Nat
  last_released_y : List Nat
  last_pressed_x : List Nat
  last_pressed_y : List Nat
  last_wheel_moved_x : Nat
  last_wheel_moved_y : Nat
  mickey_counter_x : Int
  mickey_counter_y : Int
  mickey_delta_x : ℚ
  mickey_delta_y : ℚ
  mickeys_per_pixel_x : ℚ
  mickeys_per_pixel_y : ℚ
  double_speed_threshold : Nat
  granularity_x : Nat
  granularity_y : Nat
  update_region_x0 : Int
  update_region_x1 : Int
  update_region_y0 : Int
  update_region_y1 : Int
  language : Nat
  mode : Nat
  sensitivity_x : Nat
  sensitivity_y : Nat
  unknown_01 : Nat
  sensitivity_coeff_x : ℚ
  sensitivity_coeff_y : ℚ
  minpos_x : Int
  maxpos_x : Int
  minpos_y : Int
  maxpos_y : Int
  page : Nat
  inhibit_draw : Bool
  hidden : Nat
  oldhidden : Nat
  clipx : Int
  clipy : Int
  hot_x : Int
  hot_y : Int
  background : Background
  cursor_type : MouseCursor
  text_and_mask : Nat
  text_xor_mask : Nat
  user_screen_mask : Bool
  user_cursor_mask : Bool
  user_def_screen_mask : List Nat
  user_def_cursor_mask : List Nat
  user_callback_mask : Nat
  user_callback_segment : Nat
  user_callback_offset : Nat
deriving DecidableEq

/-- The file-level mutable values of the source that are not part of the
saved driver-state block: hardware state (`buttons`, `pos_x`, `pos_y`,
`counter_w`, mapping flags), the pending-input accumulator, the rate
bookkeeping, and the two `mouse_shared` flags the file writes. -/
structure Globals where
  buttons : Nat
  pos_x : ℚ
  pos_y : ℚ
  counter_w : Int
  is_mapped : Bool
  raw_input : Bool
  rate_is_set : Bool
  rate_hz : Nat
  min_rate_hz : Nat
  pending_x_rel : ℚ
  pending_y_rel : ℚ
  pending_x_abs : Nat
  pending_y_abs : Nat
  pending_w_rel : Int
  active_dos : Bool
  dos_cb_running : Bool
deriving DecidableEq

/-- Complete mutable state of the translation unit. -/
structure M where
  drv : DriverState
  glob : Globals
deriving DecidableEq

/-- Read-only external collaborators: current video mode data (`CurMode`,
BIOS memory) and screen-content reads (`ReadCharAttr`, `INT10_GetPixel`). -/
structure Env where
  is_text : Bool
  swidth : Nat
  sheight : Nat
  bios_page : Nat
  cell_read : Nat → Nat → Nat → Nat
  pixel : Nat → Nat → Nat → Nat
  video_mode : Nat
  bios_rows : Nat
  is_egavga : Bool
  dos_immediate : Bool

/-- Guest-visible 16-bit registers used by the INT 33h dispatcher. -/
structure Regs where
  ax : Nat
  bx : Nat
  cx : Nat
  dx : Nat
  si : Nat
  di : Nat
  es : Nat
deriving DecidableEq

/-- Source `get_pos_x`: `static_cast<uint16_t>(std::lround(pos_x)) & state.granularity_x`. -/
def get_pos_x (m : M) : Nat := u16 (lround m.glob.pos_x) &&& m.drv.granularity_x

/-- Source `get_pos_y`. -/
def get_pos_y (m : M) : Nat := u16 (lround m.glob.pos_y) &&& m.drv.granularity_y

/-- Source `update_driver_active`: `mouse_shared.active_dos = (state.user_callback_mask != 0)`;
the `MOUSE_NotifyStateChanged()` call is an external notification. -/
def update_driver_active (m : M) : M :=
  {m with glob := {m.glob with active_dos := m.drv.user_callback_mask != 0}}

/-- Source `get_reset_wheel_8bit`: returns 0 when the wheel extension is off,
otherwise returns the wheel counter in 8-bit register form and clears it. -/
def get_reset_wheel_8bit (m : M) : Nat × M :=
  if !m.drv.wheel_api then (0, m)
  else (signed_to_reg8 m.glob.counter_w, {m with glob := {m.glob with counter_w := 0}})

/-- Source `get_reset_wheel_16bit`. -/
def get_reset_wheel_16bit (m : M) : Nat × M :=
  if !m.drv.wheel_api then (0, m)
  else (signed_to_reg16 m.glob.counter_w, {m with glob := {m.glob with counter_w := 0}})

/-- Source `set_mickey_pixel_rate`: only applied when both ratios are
strictly positive; ratio is in mickeys per 8 pixels. -/
def set_mickey_pixel_rate (ratio_x ratio_y : Int) (m : M) : M :=
  if 0 < ratio_x ∧ 0 < ratio_y then
    {m with drv := {m.drv with
      mickeys_per_pixel_x := (ratio_x : ℚ) / 8,
      mickeys_per_pixel_y := (ratio_y : ℚ) / 8}}
  else m

/-- Source `set_double_speed_threshold`: zero selects the default 64. -/
def set_double_speed_threshold (threshold : Nat) (m : M) : M :=
  {m with drv := {m.drv with
    double_speed_threshold := if threshold ≠ 0 then threshold else 64}}

/-- Source `set_sensitivity`: each of the three values is clamped to [0,100],
stored, and the two linear coefficients recomputed as `value / 50.0`. -/
def set_sensitivity (sx sy su : Nat) (m : M) : M :=
  let tmp_x := min 100 sx
  let tmp_y := min 100 sy
  let tmp_u := min 100 su
  {m with drv := {m.drv with
    sensitivity_x := tmp_x,
    sensitivity_y := tmp_y,
    unknown_01 := tmp_u,
    sensitivity_coeff_x := (tmp_x : ℚ) / 50,
    sensitivity_coeff_y := (tmp_y : ℚ) / 50}}

/-- Source `reset_hardware`: clears the wheel-extension flag and wheel
counter and the application rate override.  `PIC_SetIRQMask` and
`notify_interface_rate` are external side effects. -/
def reset_hardware (m : M) : M :=
  {m with
    drv := {m.drv with wheel_api := false},
    glob := {m.glob with counter_w := 0, rate_is_set := false}}

/-- Source `restore_cursor_background_text`: restores the saved character
cell (the `WriteChar` call is an external screen write) and clears the
background-saved flag. -/
def restore_cursor_background_text (m : M) : M :=
  if m.drv.hidden ≠ 0 ∨ m.drv.inhibit_draw then m
  else if m.drv.background.enabled then
    {m with drv := {m.drv with background := {m.drv.background with enabled := false}}}
  else m

/-- Source `restore_cursor_background` (graphics): the clipped
`INT10_PutPixel` loop writes saved pixels back to the external screen; the
driver-visible effect is clearing the background-saved flag. -/
def restore_cursor_background (m : M) : M :=
  if m.drv.hidden ≠ 0 ∨ m.drv.inhibit_draw ∨ !m.drv.background.enabled then m
  else
    {m with drv := {m.drv with background := {m.drv.background with enabled := false}}}

/-- Source `clip_cursor_area`: clips the 16x16 rectangle to the screen,
recording how much was clipped on each side (uint16 `addx1`, `addx2`, `addy`).
Returns `(x1, x2, y1, y2, addx1, addx2, addy)`. -/
def clip_cursor_area (x1 x2 y1 y2 clipx clipy : Int) :
    Int × Int × Int × Int × Nat × Nat × Nat :=
  let addy : Nat := if y1 < 0 then u16 (0 - y1) else 0
  let y1' : Int := if y1 < 0 then 0 else y1
  let y2' : Int := if y2 > clipy then clipy else y2
  let addx1 : Nat := if x1 < 0 then u16 (0 - x1) else 0
  let x1' : Int := if x1 < 0 then 0 else x1
  let addx2 : Nat := if x2 > clipx then u16 (x2 - clipx) else 0
  let x2' : Int := if x2 > clipx then clipx else x2
  (x1', x2', y1', y2', addx1, addx2, addy)

/-- The background-saving double loop of `MOUSEDOS_DrawCursor`: reads the
pixels newly covered by the cursor into `background.data`.  `data_pos` is a
uint16 running index (the source indexes the fixed 256-byte buffer; an
out-of-range index would be undefined behaviour in C++ and is a silent no-op
write here). -/
def save_pixels (env : Env) (page : Nat) (x1 x2 y1 y2 : Int) (addx1 addx2 addy : Nat)
    (data0 : List Nat) : List Nat :=
  let start : Nat × List Nat := ((addy * 16) % 65536, data0)
  let step_row := fun (acc : Nat × List Nat) (iy : Nat) =>
    let y := y1 + iy
    let pos0 := (acc.1 + addx1) % 65536
    let inner := (List.range (x2 - x1 + 1).toNat).foldl
      (fun (a : Nat × List Nat) (ix : Nat) =>
        let x := x1 + ix
        ((a.1 + 1) % 65536, a.2.set a.1 (env.pixel (u16 x) (u16 y) page)))
      (pos0, acc.2)
    ((inner.1 + addx2) % 65536, inner.2)
  ((List.range (y2 - y1 + 1).toNat).foldl step_row start).2

/-- Source `draw_cursor_text`: restore the old cell, skip the draw entirely
when the cursor lies inside the update(-exclusion) region, otherwise save the
covered cell and overwrite it (`ReadCharAttr` reads through `Env`; the
`WriteChar` / CRTC IO-port writes are external screen effects). -/
def draw_cursor_text (m : M) (env : Env) : M :=
  let m1 := restore_cursor_background_text m
  let x := get_pos_x m1
  let y := get_pos_y m1
  if (y : Int) ≤ m1.drv.update_region_y1 ∧ (y : Int) ≥ m1.drv.update_region_y0 ∧
     (x : Int) ≤ m1.drv.update_region_x1 ∧ (x : Int) ≥ m1.drv.update_region_x0 then
    m1
  else
    let bx0 := x / 8
    let bx := if m1.drv.mode < 2 then bx0 / 2 else bx0
    let ny := y / 8
    if m1.drv.cursor_type = MouseCursor.Software then
      let result := env.cell_read bx ny env.bios_page
      {m1 with drv := {m1.drv with background :=
        { enabled := true,
          pos_x := bx,
          pos_y := ny,
          data := (m1.drv.background.data.set 0 (result % 256)).set 1 (result / 256 % 256)}}}
    else
      -- hardware cursor: CRTC cursor-address IO writes only (external)
      {m1 with drv := {m1.drv with background :=
        {m1.drv.background with pos_x := bx, pos_y := ny}}}

/-- Source `MOUSEDOS_DrawCursor`: text mode delegates to `draw_cursor_text`;
graphics mode sets the clip range, restores the previous background, saves
the newly covered pixels and marks the background as saved, then blits the
AND/XOR cursor (a pure external-screen write, after `save_vga_registers` /
`restore_vga_registers`, both external). -/
def draw_cursor (m : M) (env : Env) : M :=
  if m.drv.hidden ≠ 0 ∨ m.drv.inhibit_draw then m
  else if env.is_text then draw_cursor_text m env
  else
    let m0 := {m with drv := {m.drv with
      clipx := i16 ((env.swidth : Int) - 1),
      clipy := i16 ((env.sheight : Int) - 1)}}
    let xrat0 : Int := if 0 < env.swidth then i16 ((640 / env.swidth : Nat) : Int) else 640
    let xrat : Int := if xrat0 = 0 then 1 else xrat0
    let m1 := restore_cursor_background m0
    let px : Int := ((get_pos_x m1 : Int)).tdiv xrat
    let x1 := i16 (px - m1.drv.hot_x)
    let y1 := i16 ((get_pos_y m1 : Int) - m1.drv.hot_y)
    let x2 := i16 (x1 + 16 - 1)
    let y2 := i16 (y1 + 16 - 1)
    let c := clip_cursor_area x1 x2 y1 y2 m1.drv.clipx m1.drv.clipy
    let data1 := save_pixels env m1.drv.page c.1 c.2.1 c.2.2.1 c.2.2.2.1
      c.2.2.2.2.1 c.2.2.2.2.2.1 c.2.2.2.2.2.2 m1.drv.background.data
    {m1 with drv := {m1.drv with background :=
      { enabled := true,
        pos_x := u16 (px - m1.drv.hot_x),
        pos_y := u16 ((get_pos_y m1 : Int) - m1.drv.hot_y),
        data := data1}}}

/-- Source `MOUSEDOS_BeforeNewVideoMode`: restore the background for the
current mode, then force the hidden state and drop any saved background. -/
def before_new_video_mode (m : M) (env : Env) : M :=
  let m1 := if !env.is_text then restore_cursor_background m
            else restore_cursor_background_text m
  {m1 with drv := {m1.drv with
    hidden := 1,
    oldhidden := 1,
    background := {m1.drv.background with enabled := false}}}

/-- The tail of `MOUSEDOS_AfterNewVideoMode` shared by all recognized video
modes: mode bookkeeping, 640-wide default range, cursor defaults, offscreen
update region, enabled driver. -/
def after_mode_common (d : DriverState) (mode : Nat) : DriverState :=
  {d with
    mode := mode,
    maxpos_x := 639,
    minpos_x := 0,
    minpos_y := 0,
    hot_x := 0,
    hot_y := 0,
    user_screen_mask := false,
    user_cursor_mask := false,
    text_and_mask := 0x77FF,
    text_xor_mask := 0x7700,
    page := 0,
    update_region_y1 := -1,
    cursor_type := MouseCursor.Software,
    enabled := true}

/-- Source `MOUSEDOS_AfterNewVideoMode` (the `MOUSE_NotifyResetDOS` call is an
external notification).  An unrecognized mode only inhibits drawing and
returns early. -/
def after_new_video_mode (m : M) (env : Env) : M :=
  let mode := env.video_mode
  let d := {m.drv with inhibit_draw := false, granularity_x := 0xffff, granularity_y := 0xffff}
  if mode = 0x00 ∨ mode = 0x01 ∨ mode = 0x02 ∨ mode = 0x03 ∨ mode = 0x07 then
    let gx : Nat := if mode < 2 then 0xfff0 else 0xfff8
    let rows0 : Nat := if env.is_egavga then env.bios_rows else 24
    let rows : Nat := if rows0 = 0 ∨ rows0 > 250 then 24 else rows0
    let d2 := {d with granularity_x := gx, granularity_y := 0xfff8,
                      maxpos_y := i16 (8 * ((rows : Int) + 1) - 1)}
    {m with drv := after_mode_common d2 mode}
  else if mode = 0x04 ∨ mode = 0x05 ∨ mode = 0x06 ∨ mode = 0x08 ∨ mode = 0x09 ∨
          mode = 0x0a ∨ mode = 0x0d ∨ mode = 0x0e ∨ mode = 0x13 then
    let gx : Nat := if mode = 0x0d ∨ mode = 0x13 then 0xfffe else d.granularity_x
    let d2 := {d with granularity_x := gx, maxpos_y := 199}
    {m with drv := after_mode_common d2 mode}
  else if mode = 0x0f ∨ mode = 0x10 then
    let d2 := {d with maxpos_y := 349}
    {m with drv := after_mode_common d2 mode}
  else if mode = 0x11 ∨ mode = 0x12 then
    let d2 := {d with maxpos_y := 479}
    {m with drv := after_mode_common d2 mode}
  else
    {m with drv := {d with inhibit_draw := true}}

/-- Source `reset` (the soft-reset routine): resets the wheel counter and
pending input, replays the video-mode handlers, restores default rates and
ranges, recentres the position, clears mickey counters, button data and the
callback mask. -/
def reset_state (m : M) (env : Env) : M :=
  let m1 := {m with glob := {m.glob with
    counter_w := 0, pending_x_rel := 0, pending_y_rel := 0, pending_w_rel := 0}}
  let m2 := before_new_video_mode m1 env
  let m3 := after_new_video_mode m2 env
  let m4 := set_mickey_pixel_rate 8 16 m3
  let m5 := set_double_speed_threshold 0 m4
  let m6 := {m5 with drv := {m5.drv with enabled := true}}
  let m7 := {m6 with glob := {m6.glob with
    pos_x := (((m6.drv.maxpos_x + 1).tdiv 2 : Int) : ℚ),
    pos_y := (((m6.drv.maxpos_y + 1).tdiv 2 : Int) : ℚ)}}
  let m8 := {m7 with drv := {m7.drv with
    mickey_counter_x := 0,
    mickey_counter_y := 0,
    mickey_delta_x := 0,
    mickey_delta_y := 0,
    last_wheel_moved_x := 0,
    last_wheel_moved_y := 0,
    times_pressed := [0, 0, 0],
    times_released := [0, 0, 0],
    last_pressed_x := [0, 0, 0],
    last_pressed_y := [0, 0, 0],
    last_released_x := [0, 0, 0],
    last_released_y := [0, 0, 0],
    user_callback_mask := 0}}
  let m9 := {m8 with glob := {m8.glob with dos_cb_running := false}}
  update_driver_active m9

/-- Source `limit_coordinates`: clamp the float position into the allowed
range on both axes. -/
def limit_coordinates (m : M) : M :=
  {m with glob := {m.glob with
    pos_x := rclamp m.glob.pos_x (m.drv.minpos_x : ℚ) (m.drv.maxpos_x : ℚ),
    pos_y := rclamp m.glob.pos_y (m.drv.minpos_y : ℚ) (m.drv.maxpos_y : ℚ)}}

/-- The per-axis `update` lambda of `update_mickeys_on_move`: accumulate the
movement into the fractional delta, consume the rounded integer part into the
16-bit wrapping mickey counter. -/
def mickey_update (counter : Int) (delta rel : ℚ) : Int × ℚ :=
  let delta1 := delta + rel
  let d := i16 (lround delta1)
  if d = 0 then (counter, delta1)
  else
    let delta2 := delta1 - (d : ℚ)
    let counter_big := counter + d
    let counter1 :=
      if counter_big > 32767 then counter_big - 65536
      else if counter_big < -32768 then counter_big + 65536
      else counter_big
    (counter1, delta2)

/-- Source `update_mickeys_on_move`: convert the pixel movement to mickeys
through the stored ratio and update both axis counters (the
`speed_mickeys.Update` call feeds the external speed estimator). -/
def update_mickeys_on_move (m : M) (x_rel y_rel : ℚ) : M :=
  let x_mov := x_rel * m.drv.mickeys_per_pixel_x
  let y_mov := y_rel * m.drv.mickeys_per_pixel_y
  let px := mickey_update m.drv.mickey_counter_x m.drv.mickey_delta_x x_mov
  let py := mickey_update m.drv.mickey_counter_y m.drv.mickey_delta_y y_mov
  {m with drv := {m.drv with
    mickey_counter_x := px.1, mickey_delta_x := px.2,
    mickey_counter_y := py.1, mickey_delta_y := py.2}}

/-- Folding a whole sequence of mickey movements (already converted to
mickey units) through the per-axis `update` routine, starting from a given
counter/fractional-remainder pair. -/
def consume (moves : List ℚ) (p : Int × ℚ) : Int × ℚ :=
  moves.foldl (fun q rel => mickey_update q.1 q.2 rel) p

/-- Source `move_wheel`: fold the pending wheel movement into the clamped
8-bit wheel counter, consume the pending value, record the position. -/
def move_wheel (m : M) : M :=
  let m1 := {m with glob := {m.glob with
    counter_w := clamp_to_int8 (m.glob.counter_w + m.glob.pending_w_rel),
    pending_w_rel := 0}}
  {m1 with drv := {m1.drv with
    last_wheel_moved_x := get_pos_x m1,
    last_wheel_moved_y := get_pos_y m1}}

/-- Source `MOUSEDOS_NotifyWheel` in the `dos_immediate` configuration: a
wheel tick is ignored without the wheel extension; otherwise it accumulates
(8-bit clamped) into the pending value which, when nonzero, is immediately
consumed by `move_wheel`. -/
def notify_wheel_immediate (w : Int) (m : M) : M :=
  if !m.drv.wheel_api then m
  else
    let p := clamp_to_int8 (m.glob.pending_w_rel + w)
    let m1 := {m with glob := {m.glob with pending_w_rel := p}}
    if p = 0 then m1 else move_wheel m1

/-- A sequence of wheel ticks, each delivered and consumed in order. -/
def wheel_ticks (ws : List Int) (m : M) : M :=
  ws.foldl (fun acc w => notify_wheel_immediate w acc) m

/-- The C++ `sizeof(state)` byte count reported by function 0x15 and
transferred by functions 0x16/0x17.  Its numeric value is decided by the host
ABI (struct padding) and is not observable inside this embedding; what
matters — and what the source guarantees by using the same `sizeof(state)`
expression in all three handlers — is that all three functions use this same
constant. -/
def sizeof_driver_state : Nat := 456

/-- Function 0x16 (save driver state): `MEM_BlockWrite` copies the whole
state block, verbatim, to guest memory.  The written block is modelled as the
`DriverState` value itself. -/
def int33_save (m : M) : DriverState := m.drv

/-- Function 0x17 (load driver state): `MEM_BlockRead` overwrites the whole
state block verbatim from guest memory, then the pending input is reset
(relative and wheel accumulators only), the active-driver status recomputed,
and the sensitivity coefficients re-derived from the loaded raw fields. -/
def int33_load (blk : DriverState) (m : M) : M :=
  let m1 := {m with drv := blk}
  let m2 := {m1 with glob := {m1.glob with
    pending_x_rel := 0, pending_y_rel := 0, pending_w_rel := 0}}
  let m3 := update_driver_active m2
  set_sensitivity m3.drv.sensitivity_x m3.drv.sensitivity_y m3.drv.unknown_01 m3

/-- The shared tail of INT 33h functions 0x00 and 0x21: report the installed
driver (AX=0xFFFF, BX=3) and run the soft-reset routine. -/
def soft_reset (r : Regs) (m : M) (env : Env) : Regs × M :=
  ({r with ax := 0xffff, bx := 3}, reset_state m env)

/-- Source `int33_handler`, restricted to the functions the verified claims
exercise: 0x00/0x21 (reset), 0x01/0x02 (show/hide), 0x03 (position and
buttons), 0x04 (set position), 0x05/0x06 (button press/release and wheel
data), 0x07/0x08 (cursor ranges), 0x15 (storage requirement).  Functions
0x16/0x17 transfer guest memory and are modelled separately as `int33_save`
and `int33_load`.  All other function codes leave the registers and state as
received, which is also what the source's unhandled default does. -/
def int33 (r : Regs) (m : M) (env : Env) : Regs × M :=
  match r.ax with
  | 0x00 => soft_reset r (reset_hardware m) env
  | 0x21 => soft_reset r m env
  | 0x01 =>
    let d0 := m.drv
    let d1 := if d0.hidden ≠ 0 then {d0 with hidden := d0.hidden - 1} else d0
    let d2 := {d1 with update_region_y1 := -1}
    (r, draw_cursor {m with drv := d2} env)
  | 0x02 =>
    let m1 := if !env.is_text then restore_cursor_background m
              else restore_cursor_background_text m
    (r, {m1 with drv := {m1.drv with hidden := (m1.drv.hidden + 1) % 65536}})
  | 0x03 =>
    let p := get_reset_wheel_8bit m
    ({r with bx := m.glob.buttons + 256 * p.1, cx := get_pos_x m, dx := get_pos_y m}, p.2)
  | 0x04 =>
    let g0 := m.glob
    let g1 := if reg_to_signed16 r.cx ≠ (get_pos_x m : Int) then {g0 with pos_x := (r.cx : ℚ)} else g0
    let g2 := if reg_to_signed16 r.dx ≠ (get_pos_y m : Int) then {g1 with pos_y := (r.dx : ℚ)} else g1
    let m1 := limit_coordinates {m with glob := g2}
    (r, draw_cursor m1 env)
  | 0x05 =>
    let idx := r.bx
    if idx = 0xffff ∧ m.drv.wheel_api then
      let p := get_reset_wheel_16bit m
      ({r with bx := p.1, cx := m.drv.last_wheel_moved_x, dx := m.drv.last_wheel_moved_y}, p.2)
    else if idx < 3 then
      let r1 := {r with ax := m.glob.buttons,
                        bx := m.drv.times_pressed.getD idx 0,
                        cx := m.drv.last_pressed_x.getD idx 0,
                        dx := m.drv.last_pressed_y.getD idx 0}
      (r1, {m with drv := {m.drv with times_pressed := m.drv.times_pressed.set idx 0}})
    else
      ({r with ax := m.glob.buttons, bx := 0, cx := 0, dx := 0}, m)
  | 0x06 =>
    let idx := r.bx
    if idx = 0xffff ∧ m.drv.wheel_api then
      let p := get_reset_wheel_16bit m
      ({r with bx := p.1, cx := m.drv.last_wheel_moved_x, dx := m.drv.last_wheel_moved_y}, p.2)
    else if idx < 3 then
      let r1 := {r with ax := m.glob.buttons,
                        bx := m.drv.times_released.getD idx 0,
                        cx := m.drv.last_released_x.getD idx 0,
                        dx := m.drv.last_released_y.getD idx 0}
      (r1, {m with drv := {m.drv with times_released := m.drv.times_released.set idx 0}})
    else
      ({r with ax := m.glob.buttons, bx := 0, cx := 0, dx := 0}, m)
  | 0x07 =>
    let lo := min (reg_to_signed16 r.cx) (reg_to_signed16 r.dx)
    let hi := max (reg_to_signed16 r.cx) (reg_to_signed16 r.dx)
    (r, {m with
      drv := {m.drv with minpos_x := lo, maxpos_x := hi},
      glob := {m.glob with pos_x := rclamp m.glob.pos_x (lo : ℚ) (hi : ℚ)}})
  | 0x08 =>
    let lo := min (reg_to_signed16 r.cx) (reg_to_signed16 r.dx)
    let hi := max (reg_to_signed16 r.cx) (reg_to_signed16 r.dx)
    (r, {m with
      drv := {m.drv with minpos_y := lo, maxpos_y := hi},
      glob := {m.glob with pos_y := rclamp m.glob.pos_y (lo : ℚ) (hi : ℚ)}})
  | 0x15 =>
    ({r with bx := sizeof_driver_state}, m)
  | _ => (r, m)


/-! ## Sample states used by witnesses and counterexamples -/

/-- A concrete driver-state value resembling the state right after a reset in
video mode 0x03 (sensitivity 50/50/50, coefficients 1, range 0..639 x 0..199). -/
def sample_drv : DriverState :=
  { enabled := false, wheel_api := false,
    times_pressed := [0, 0, 0], times_released := [0, 0, 0],
    last_released_x := [0, 0, 0], last_released_y := [0, 0, 0],
    last_pressed_x := [0, 0, 0], last_pressed_y := [0, 0, 0],
    last_wheel_moved_x := 0, last_wheel_moved_y := 0,
    mickey_counter_x := 0, mickey_counter_y := 0,
    mickey_delta_x := 0, mickey_delta_y := 0,
    mickeys_per_pixel_x := 1, mickeys_per_pixel_y := 2,
    double_speed_threshold := 64,
    granularity_x := 0xffff, granularity_y := 0xffff,
    update_region_x0 := 0, update_region_x1 := 0,
    update_region_y0 := 0, update_region_y1 := 0,
    language := 0, mode := 3,
    sensitivity_x := 50, sensitivity_y := 50, unknown_01 := 50,
    sensitivity_coeff_x := 1, sensitivity_coeff_y := 1,
    minpos_x := 0, maxpos_x := 639, minpos_y := 0, maxpos_y := 199,
    page := 0, inhibit_draw := false, hidden := 0, oldhidden := 1,
    clipx := 0, clipy := 0, hot_x := 0, hot_y := 0,
    background := { enabled := false, pos_x := 0, pos_y := 0, data := List.replicate 256 0 },
    cursor_type := MouseCursor.Software,
    text_and_mask := 0x77FF, text_xor_mask := 0x7700,
    user_screen_mask := false, user_cursor_mask := false,
    user_def_screen_mask := List.replicate 16 0,
    user_def_cursor_mask := List.replicate 16 0,
    user_callback_mask := 0, user_callback_segment := 0, user_callback_offset := 0 }

/-- Concrete globals: cursor at (100, 100), no buttons, nothing pending. -/
def sample_glob : Globals :=
  { buttons := 0, pos_x := 100, pos_y := 100, counter_w := 0,
    is_mapped := false, raw_input := true, rate_is_set := false,
    rate_hz := 0, min_rate_hz := 0,
    pending_x_rel := 0, pending_y_rel := 0, pending_x_abs := 0, pending_y_abs := 0,
    pending_w_rel := 0, active_dos := false, dos_cb_running := false }

/-- Concrete full state for witnesses. -/
def sample_m : M := { drv := sample_drv, glob := sample_glob }

/-- Sample state for the set-position counterexample: position -5 on the x
axis (allowed by the range -10..100 set through function 0x07), 50 on y. -/
def sample_m_neg : M :=
  { drv := {sample_drv with minpos_x := -10, maxpos_x := 100},
    glob := {sample_glob with pos_x := -5, pos_y := 50} }

/-- Sample state for the update-exclusion claims: exclusion rectangle
covering the whole screen (0..639 x 0..479), cursor visible at (100, 100). -/
def sample_m_excl : M :=
  { drv := {sample_drv with update_region_x0 := 0, update_region_x1 := 639,
                            update_region_y0 := 0, update_region_y1 := 479},
    glob := sample_glob }

/-- A text-mode environment (mode 0x03, 640x480 cells area, blank screen). -/
def env_text : Env :=
  { is_text := true, swidth := 640, sheight := 480, bios_page := 0,
    cell_read := fun _ _ _ => 0, pixel := fun _ _ _ => 0, video_mode := 3,
    bios_rows := 24, is_egavga := true, dos_immediate := true }

/-- A graphics-mode environment (320x200, blank screen). -/
def env_gfx : Env :=
  { is_text := false, swidth := 320, sheight := 200, bios_page := 0,
    cell_read := fun _ _ _ => 0, pixel := fun _ _ _ => 0, video_mode := 0x13,
    bios_rows := 24, is_egavga := true, dos_immediate := true }

/-- A driver-state block is valid when its raw sensitivity fields are within
the clamped range and the derived coefficients match them (the invariant the
driver itself maintains; a guest can break it only through function 0x17). -/
def ValidDriverState (d : DriverState) : Prop :=
  d.sensitivity_x ≤ 100 ∧ d.sensitivity_y ≤ 100 ∧ d.unknown_01 ≤ 100 ∧
  d.sensitivity_coeff_x = (d.sensitivity_x : ℚ) / 50 ∧
  d.sensitivity_coeff_y = (d.sensitivity_y : ℚ) / 50

/-! ## Arithmetic facts about the rounding helper -/

/-- Floor of an integer fraction: for a positive denominator, the floor of
the rational `a / b` is the integer floor division `a / b`. -/
theorem floor_intCast_div_q (a b : ℤ) (hb : 0 < b) :
    ⌊(a : ℚ) / (b : ℚ)⌋ = a / b := by
  have hb0 : (0 : ℚ) < (b : ℚ) := by exact_mod_cast hb
  rw [Int.floor_eq_iff]
  constructor
  · rw [le_div_iff hb0]
    have h : a / b * b ≤ a := Int.ediv_mul_le a (by omega)
    exact_mod_cast h
  · rw [div_lt_iff hb0]
    have h : a < (a / b + 1) * b := Int.lt_ediv_add_one_mul_self a hb
    push_cast
    exact_mod_cast h

/-- The computable `lround` agrees with round-half-away-from-zero expressed
with floor and ceiling. -/
theorem lround_eq (q : ℚ) :
    lround q = if 0 ≤ q then ⌊q + 1/2⌋ else ⌈q - 1/2⌉ := by
  have hd : (0 : ℤ) < (q.den : ℤ) := by exact_mod_cast q.den_pos
  have hd0 : ((q.den : ℤ) : ℚ) ≠ 0 := by
    have : (0 : ℚ) < ((q.den : ℤ) : ℚ) := by exact_mod_cast hd
    linarith
  have hq : (q : ℚ) = ((q.num : ℤ) : ℚ) / ((q.den : ℤ) : ℚ) := by
    exact_mod_cast (Rat.num_div_den q).symm
  by_cases h : 0 ≤ q
  · rw [if_pos h]
    unfold lround
    rw [if_pos (Rat.num_nonneg.mpr h)]
    have e1 : q + 1/2 = ((2 * q.num + (q.den : ℤ) : ℤ) : ℚ) / ((2 * (q.den : ℤ) : ℤ) : ℚ) := by
      conv_lhs => rw [hq]
      push_cast
      field_simp
      ring
    rw [e1, floor_intCast_div_q _ _ (by omega)]
  · rw [if_neg h]
    unfold lround
    rw [if_neg (fun hn => h (Rat.num_nonneg.mp hn))]
    have e2 : -(q - 1/2) = ((-2 * q.num + (q.den : ℤ) : ℤ) : ℚ) / ((2 * (q.den : ℤ) : ℤ) : ℚ) := by
      conv_lhs => rw [hq]
      push_cast
      field_simp
      ring
    have e3 : ⌈q - 1/2⌉ = -⌊-(q - 1/2)⌋ := by
      rw [Int.floor_neg]
      ring
    rw [e3, e2, floor_intCast_div_q _ _ (by omega)]

/-! ## Frame lemmas: what the cursor drawer does not touch -/

theorem restore_text_glob (m : M) :
    (restore_cursor_background_text m).glob = m.glob := by
  unfold restore_cursor_background_text
  split_ifs <;> rfl

theorem restore_gfx_glob (m : M) :
    (restore_cursor_background m).glob = m.glob := by
  unfold restore_cursor_background
  split_ifs <;> rfl

theorem draw_text_glob (m : M) (env : Env) :
    (draw_cursor_text m env).glob = m.glob := by
  unfold draw_cursor_text
  dsimp only
  split_ifs <;> simp [restore_text_glob]

theorem draw_cursor_glob (m : M) (env : Env) :
    (draw_cursor m env).glob = m.glob := by
  unfold draw_cursor
  split_ifs <;> simp [draw_text_glob, restore_gfx_glob]

theorem restore_text_hidden (m : M) :
    (restore_cursor_background_text m).drv.hidden = m.drv.hidden := by
  unfold restore_cursor_background_text
  split_ifs <;> rfl

theorem restore_gfx_hidden (m : M) :
    (restore_cursor_background m).drv.hidden = m.drv.hidden := by
  unfold restore_cursor_background
  split_ifs <;> rfl

theorem draw_text_hidden (m : M) (env : Env) :
    (draw_cursor_text m env).drv.hidden = m.drv.hidden := by
  unfold draw_cursor_text
  dsimp only
  split_ifs <;> simp [restore_text_hidden]

theorem draw_cursor_hidden (m : M) (env : Env) :
    (draw_cursor m env).drv.hidden = m.drv.hidden := by
  unfold draw_cursor
  split_ifs <;> simp [draw_text_hidden, restore_gfx_hidden]

theorem restore_text_region_y1 (m : M) :
    (restore_cursor_background_text m).drv.update_region_y1 = m.drv.update_region_y1 := by
  unfold restore_cursor_background_text
  split_ifs <;> rfl

theorem restore_gfx_region_y1 (m : M) :
    (restore_cursor_background m).drv.update_region_y1 = m.drv.update_region_y1 := by
  unfold restore_cursor_background
  split_ifs <;> rfl

theorem draw_text_region_y1 (m : M) (env : Env) :
    (draw_cursor_text m env).drv.update_region_y1 = m.drv.update_region_y1 := by
  unfold draw_cursor_text
  dsimp only
  split_ifs <;> simp [restore_text_region_y1]

theorem draw_cursor_region_y1 (m : M) (env : Env) :
    (draw_cursor m env).drv.update_region_y1 = m.drv.update_region_y1 := by
  unfold draw_cursor
  split_ifs <;> simp [draw_text_region_y1, restore_gfx_region_y1]


/-- If the wheel counter is already 0, clearing it is the identity. -/
theorem counter_w_eta (m : M) (h : m.glob.counter_w = 0) :
    ({m with glob := {m.glob with counter_w := 0}} : M) = m := by
  obtain ⟨d, g⟩ := m
  obtain ⟨b, px, py, cw, a1, a2, a3, a4, a5, a6, a7, a8, a9, a10, a11, a12⟩ := g
  have h2 : cw = 0 := h
  subst h2
  rfl

/-- Claim C3: for every pair of arguments to "define horizontal cursor range"
(function 0x07, and symmetrically 0x08 for the vertical range), the stored
bounds become the lesser and the greater of the two signed arguments and the
current position is clamped into the new range; in particular arguments
(600, 100) store min=100, max=600 and move a position previously at 700
to 600. -/
theorem cursor_range_define :
    (∀ (bx cx dx si di es : Nat) (m : M) (env : Env),
      ((int33 (Regs.mk 0x07 bx cx dx si di es) m env).2.drv.minpos_x
          = min (reg_to_signed16 cx) (reg_to_signed16 dx)) ∧
      ((int33 (Regs.mk 0x07 bx cx dx si di es) m env).2.drv.maxpos_x
          = max (reg_to_signed16 cx) (reg_to_signed16 dx)) ∧
      ((int33 (Regs.mk 0x07 bx cx dx si di es) m env).2.glob.pos_x
          = rclamp m.glob.pos_x
              ((min (reg_to_signed16 cx) (reg_to_signed16 dx) : Int) : ℚ)
              ((max (reg_to_signed16 cx) (reg_to_signed16 dx) : Int) : ℚ))) ∧
    (∀ (bx cx dx si di es : Nat) (m : M) (env : Env),
      ((int33 (Regs.mk 0x08 bx cx dx si di es) m env).2.drv.minpos_y
          = min (reg_to_signed16 cx) (reg_to_signed16 dx)) ∧
      ((int33 (Regs.mk 0x08 bx cx dx si di es) m env).2.drv.maxpos_y
          = max (reg_to_signed16 cx) (reg_to_signed16 dx)) ∧
      ((int33 (Regs.mk 0x08 bx cx dx si di es) m env).2.glob.pos_y
          = rclamp m.glob.pos_y
              ((min (reg_to_signed16 cx) (reg_to_signed16 dx) : Int) : ℚ)
              ((max (reg_to_signed16 cx) (reg_to_signed16 dx) : Int) : ℚ))) ∧
    ((int33 (Regs.mk 0x07 0 600 100 0 0 0)
        {sample_m with glob := {sample_glob with pos_x := 700}} env_text).2.drv.minpos_x = 100 ∧
     (int33 (Regs.mk 0x07 0 600 100 0 0 0)
        {sample_m with glob := {sample_glob with pos_x := 700}} env_text).2.drv.maxpos_x = 600 ∧
     (int33 (Regs.mk 0x07 0 600 100 0 0 0)
        {sample_m with glob := {sample_glob with pos_x := 700}} env_text).2.glob.pos_x = 600) := by
  refine ⟨fun bx cx dx si di es m env => ⟨rfl, rfl, rfl⟩,
          fun bx cx dx si di es m env => ⟨rfl, rfl, rfl⟩, ?_, ?_, ?_⟩ <;> decide

/-- Claim C8: hard reset (function 0x00) equals hardware teardown
(`reset_hardware`: wheel extension off, wheel counter zeroed, rate override
cleared) followed by the soft reset of function 0x21, and both report
AX=0xFFFF, BX=3. -/
theorem hard_reset_superset :
    ∀ (bx cx dx si di es : Nat) (m : M) (env : Env),
      (int33 (Regs.mk 0x00 bx cx dx si di es) m env
        = int33 (Regs.mk 0x21 bx cx dx si di es) (reset_hardware m) env) ∧
      (reset_hardware m).drv.wheel_api = false ∧
      (reset_hardware m).glob.counter_w = 0 ∧
      (reset_hardware m).glob.rate_is_set = false ∧
      (int33 (Regs.mk 0x00 bx cx dx si di es) m env).1.ax = 0xffff ∧
      (int33 (Regs.mk 0x00 bx cx dx si di es) m env).1.bx = 3 := by
  intro bx cx dx si di es m env
  exact ⟨rfl, rfl, rfl, rfl, rfl, rfl⟩

/-- Claim C10: a button index that is neither a valid button (< 3) nor the
wheel-magic 0xFFFF-with-extension gets, from both function 0x05 and function
0x06, AX = button bitmask and BX = CX = DX = 0, and the driver state is left
completely unchanged. -/
theorem invalid_button_index_noop :
    ∀ (ax bx cx dx si di es : Nat) (m : M) (env : Env),
      (ax = 0x05 ∨ ax = 0x06) → 3 ≤ bx → ¬(bx = 0xffff ∧ m.drv.wheel_api = true) →
      int33 (Regs.mk ax bx cx dx si di es) m env
        = (Regs.mk m.glob.buttons 0 0 0 si di es, m) := by
  intro ax bx cx dx si di es m env hax hidx hmagic
  rcases hax with h | h <;> subst h <;>
    (simp only [int33]; rw [if_neg, if_neg])
  · omega
  · exact hmagic
  · omega
  · exact hmagic

/-- Witness for C10 at a concrete input: function 0x05 with button index 7 on
the sample state (wheel extension off). -/
theorem invalid_button_index_noop_witness :
    int33 (Regs.mk 0x05 7 11 13 17 19 23) sample_m env_text
      = (Regs.mk sample_m.glob.buttons 0 0 0 17 19 23, sample_m) :=
  invalid_button_index_noop 0x05 7 11 13 17 19 23 sample_m env_text (Or.inl rfl)
    (by norm_num) (by decide)

/-- Claim C7: function 0x03 returns BL = button bitmask, BH = the 8-bit wheel
counter (read and cleared by the call), CX/DX = the rounded, granularity-
masked position.  The hypothesis is the source invariant that a nonzero wheel
counter only exists with the wheel extension enabled. -/
theorem get_position_and_buttons :
    ∀ (bx cx dx si di es : Nat) (m : M) (env : Env),
      (m.drv.wheel_api = true ∨ m.glob.counter_w = 0) →
      int33 (Regs.mk 0x03 bx cx dx si di es) m env
        = (Regs.mk 0x03 (m.glob.buttons + 256 * signed_to_reg8 m.glob.counter_w)
            (get_pos_x m) (get_pos_y m) si di es,
           {m with glob := {m.glob with counter_w := 0}}) := by
  intro bx cx dx si di es m env hw
  by_cases hapi : m.drv.wheel_api = true
  · simp [int33, get_reset_wheel_8bit, hapi]
  · have hcw : m.glob.counter_w = 0 := hw.resolve_left hapi
    have hapi2 : m.drv.wheel_api = false := by
      revert hapi; cases m.drv.wheel_api <;> simp
    simp [int33, get_reset_wheel_8bit, hapi2, hcw, signed_to_reg8, counter_w_eta m hcw]

/-- Witness for C7 at a concrete input: wheel extension on, wheel counter -3,
position (100, 100). -/
theorem get_position_and_buttons_witness :
    ((int33 (Regs.mk 0x03 1 2 3 4 5 6)
        {sample_m with drv := {sample_drv with wheel_api := true},
                       glob := {sample_glob with counter_w := -3}} env_text).1.bx
        = 0 + 256 * 253) ∧
    ((int33 (Regs.mk 0x03 1 2 3 4 5 6)
        {sample_m with drv := {sample_drv with wheel_api := true},
                       glob := {sample_glob with counter_w := -3}} env_text).1.cx = 100) ∧
    ((int33 (Regs.mk 0x03 1 2 3 4 5 6)
        {sample_m with drv := {sample_drv with wheel_api := true},
                       glob := {sample_glob with counter_w := -3}} env_text).2.glob.counter_w
        = 0) := by
  have h := get_position_and_buttons 1 2 3 4 5 6
    {sample_m with drv := {sample_drv with wheel_api := true},
                   glob := {sample_glob with counter_w := -3}} env_text (Or.inl rfl)
  refine ⟨?_, ?_, ?_⟩
  · rw [h]
    decide
  · rw [h]
    decide
  · rw [h]

/-- Claim C4: from the post-reset hidden count 1, one "show cursor" call
(function 0x01) gives hidden = 0 (visible), clears the update-exclusion
rectangle by moving it offscreen (y-bound -1) and forces a redraw; a second
"show" leaves the count at 0 (never negative); "hide cursor" (function 0x02)
increments the count. -/
theorem show_hide_balance :
    ∀ (m : M) (env : Env) (bx cx dx si di es : Nat),
      m.drv.hidden = 1 →
      ((int33 (Regs.mk 0x01 bx cx dx si di es) m env).2.drv.hidden = 0) ∧
      ((int33 (Regs.mk 0x01 bx cx dx si di es) m env).2.drv.update_region_y1 = -1) ∧
      ((int33 (Regs.mk 0x01 bx cx dx si di es) m env).2
          = draw_cursor {m with drv := {m.drv with hidden := 0, update_region_y1 := -1}} env) ∧
      ((int33 (Regs.mk 0x01 bx cx dx si di es)
          ((int33 (Regs.mk 0x01 bx cx dx si di es) m env).2) env).2.drv.hidden = 0) ∧
      (∀ m' : M, (int33 (Regs.mk 0x02 bx cx dx si di es) m' env).2.drv.hidden
          = (m'.drv.hidden + 1) % 65536) := by
  intro m env bx cx dx si di es h
  have hshow : ∀ mm : M, (int33 (Regs.mk 0x01 bx cx dx si di es) mm env).2
      = draw_cursor {mm with drv :=
          {(if mm.drv.hidden ≠ 0 then {mm.drv with hidden := mm.drv.hidden - 1} else mm.drv)
            with update_region_y1 := -1}} env := fun mm => rfl
  have hhid : ∀ mm : M, (int33 (Regs.mk 0x01 bx cx dx si di es) mm env).2.drv.hidden
      = (if mm.drv.hidden ≠ 0 then mm.drv.hidden - 1 else mm.drv.hidden) := by
    intro mm
    rw [hshow mm, draw_cursor_hidden]
    split_ifs with hc <;> simp [hc]
  refine ⟨?_, ?_, ?_, ?_, ?_⟩
  · rw [hhid m, h]
    norm_num
  · rw [hshow m, draw_cursor_region_y1]
  · rw [hshow m, h]
    norm_num
  · rw [hhid _, hhid m, h]
    norm_num
  · intro m'
    simp only [int33]
    by_cases ht : env.is_text <;>
      simp [ht, restore_gfx_hidden, restore_text_hidden]

/-- Witness for C4 at a concrete input: the sample state with hidden = 1 in
the text environment. -/
theorem show_hide_balance_witness :
    ((int33 (Regs.mk 0x01 0 0 0 0 0 0)
        {sample_m with drv := {sample_drv with hidden := 1}} env_text).2.drv.hidden = 0) ∧
    ((int33 (Regs.mk 0x02 0 0 0 0 0 0)
        {sample_m with drv := {sample_drv with hidden := 1}} env_text).2.drv.hidden = 2) := by
  have h := show_hide_balance {sample_m with drv := {sample_drv with hidden := 1}}
    env_text 0 0 0 0 0 0 rfl
  exact ⟨h.1, (h.2.2.2.2 _).trans (by decide)⟩

/-- Claim C5: function 0x15 reports the same block size that the save/load
functions 0x16/0x17 transfer; the transfer is verbatim, and after a load the
pending accumulators are reset, the active-driver flag is recomputed from the
loaded callback mask, and the sensitivity coefficients are re-derived as
`sensitivity/50`; hence a save immediately followed by a load restores the
driver state exactly (so every read-only query answers as before). -/
theorem save_load_round_trip :
    (∀ (bx cx dx si di es : Nat) (m : M) (env : Env),
      (int33 (Regs.mk 0x15 bx cx dx si di es) m env).1.bx = sizeof_driver_state) ∧
    (∀ m : M, ValidDriverState m.drv →
      (int33_load (int33_save m) m
        = {m with glob := {m.glob with
            pending_x_rel := 0, pending_y_rel := 0, pending_w_rel := 0,
            active_dos := m.drv.user_callback_mask != 0}}) ∧
      (int33_load (int33_save m) m).drv = m.drv ∧
      (int33_load (int33_save m) m).drv.sensitivity_coeff_x
        = (m.drv.sensitivity_x : ℚ) / 50 ∧
      (int33_load (int33_save m) m).drv.sensitivity_coeff_y
        = (m.drv.sensitivity_y : ℚ) / 50) := by
  refine ⟨fun bx cx dx si di es m env => rfl, fun m hv => ?_⟩
  obtain ⟨h1, h2, h3, h4, h5⟩ := hv
  have key : int33_load (int33_save m) m
      = {m with glob := {m.glob with
          pending_x_rel := 0, pending_y_rel := 0, pending_w_rel := 0,
          active_dos := m.drv.user_callback_mask != 0}} := by
    unfold int33_load int33_save update_driver_active set_sensitivity
    dsimp only
    rw [min_eq_right h1, min_eq_right h2, min_eq_right h3, ← h4, ← h5]
  refine ⟨key, ?_, ?_, ?_⟩
  · rw [key]
  · rw [key]
    exact h4
  · rw [key]
    exact h5

/-- Witness for C5 at a concrete input: the sample state is valid and
survives the save/load round trip unchanged. -/
theorem save_load_round_trip_witness :
    ValidDriverState sample_m.drv ∧
    (int33_load (int33_save sample_m) sample_m).drv = sample_m.drv := by
  have hv : ValidDriverState sample_m.drv := by
    refine ⟨?_, ?_, ?_, ?_, ?_⟩ <;> norm_num [sample_m, sample_drv, ValidDriverState]
  exact ⟨hv, (save_load_round_trip.2 sample_m hv).2.1⟩

/-! ## Wheel counter saturation -/

theorem sum_nonneg_int (ws : List Int) (h : ∀ w ∈ ws, 0 ≤ w) : 0 ≤ ws.sum := by
  induction ws with
  | nil => simp
  | cons w ws ih =>
    simp only [List.sum_cons]
    have h1 := h w (by simp)
    have h2 := ih (fun x hx => h x (by simp [hx]))
    omega

theorem sum_nonpos_int (ws : List Int) (h : ∀ w ∈ ws, w ≤ 0) : ws.sum ≤ 0 := by
  induction ws with
  | nil => simp
  | cons w ws ih =>
    simp only [List.sum_cons]
    have h1 := h w (by simp)
    have h2 := ih (fun x hx => h x (by simp [hx]))
    omega

theorem sum_min_127_ge (ws : List Int) (h : ∀ w ∈ ws, 0 ≤ w) :
    min 127 ws.sum ≤ (ws.map (fun w => min 127 w)).sum := by
  induction ws with
  | nil => simp
  | cons w ws ih =>
    have hw := h w (by simp)
    have hsum := sum_nonneg_int ws (fun x hx => h x (by simp [hx]))
    have ih2 := ih (fun x hx => h x (by simp [hx]))
    simp only [List.map_cons, List.sum_cons]
    omega

theorem sum_max_neg128_le (ws : List Int) (h : ∀ w ∈ ws, w ≤ 0) :
    (ws.map (fun w => max (-128) w)).sum ≤ max (-128) ws.sum := by
  induction ws with
  | nil => simp
  | cons w ws ih =>
    have hw := h w (by simp)
    have hsum := sum_nonpos_int ws (fun x hx => h x (by simp [hx]))
    have ih2 := ih (fun x hx => h x (by simp [hx]))
    simp only [List.map_cons, List.sum_cons]
    omega

theorem wheel_ticks_pos (ws : List Int) :
    ∀ m : M, m.drv.wheel_api = true → m.glob.pending_w_rel = 0 →
    0 ≤ m.glob.counter_w → m.glob.counter_w ≤ 127 →
    (∀ w ∈ ws, 0 ≤ w) →
    (wheel_ticks ws m).glob.counter_w
      = min 127 (m.glob.counter_w + (ws.map (fun w => min 127 w)).sum) := by
  induction ws with
  | nil =>
    intro m h1 h2 h3 h4 _
    simp only [wheel_ticks, List.foldl_nil, List.map_nil, List.sum_nil]
    omega
  | cons w ws ih =>
    intro m h1 h2 h3 h4 hw
    have hw0 : 0 ≤ w := hw w (by simp)
    have hwtail : ∀ x ∈ ws, 0 ≤ x := fun x hx => hw x (by simp [hx])
    have hsum : 0 ≤ (ws.map (fun w => min 127 w)).sum := by
      apply sum_nonneg_int
      intro x hx
      obtain ⟨y, hy, rfl⟩ := List.mem_map.mp hx
      have := hwtail y hy
      omega
    have step : wheel_ticks (w :: ws) m = wheel_ticks ws (notify_wheel_immediate w m) := rfl
    rw [step]
    simp only [notify_wheel_immediate, h1, Bool.not_true, Bool.false_eq_true, if_false]
    rw [h2]
    by_cases hp : clamp_to_int8 (0 + w) = 0
    · rw [if_pos hp]
      have hw00 : min 127 w = 0 := by
        unfold clamp_to_int8 at hp
        omega
      rw [ih {m with glob := {m.glob with pending_w_rel := clamp_to_int8 (0 + w)}}
            h1 hp h3 h4 hwtail]
      simp only [List.map_cons, List.sum_cons, hw00]
      omega
    · rw [if_neg hp]
      have hcc : clamp_to_int8 (m.glob.counter_w + clamp_to_int8 (0 + w))
          = min 127 (m.glob.counter_w + min 127 w) := by
        unfold clamp_to_int8
        omega
      have hbound : (move_wheel {m with glob :=
            {m.glob with pending_w_rel := clamp_to_int8 (0 + w)}}).glob.counter_w
          = min 127 (m.glob.counter_w + min 127 w) := hcc
      have happ := ih (move_wheel {m with glob :=
          {m.glob with pending_w_rel := clamp_to_int8 (0 + w)}}) h1 rfl
        (by rw [hbound]; omega) (by rw [hbound]; omega) hwtail
      rw [hbound] at happ
      rw [happ]
      simp only [List.map_cons, List.sum_cons]
      omega

theorem wheel_ticks_neg (ws : List Int) :
    ∀ m : M, m.drv.wheel_api = true → m.glob.pending_w_rel = 0 →
    -128 ≤ m.glob.counter_w → m.glob.counter_w ≤ 0 →
    (∀ w ∈ ws, w ≤ 0) →
    (wheel_ticks ws m).glob.counter_w
      = max (-128) (m.glob.counter_w + (ws.map (fun w => max (-128) w)).sum) := by
  induction ws with
  | nil =>
    intro m h1 h2 h3 h4 _
    simp only [wheel_ticks, List.foldl_nil, List.map_nil, List.sum_nil]
    omega
  | cons w ws ih =>
    intro m h1 h2 h3 h4 hw
    have hw0 : w ≤ 0 := hw w (by simp)
    have hwtail : ∀ x ∈ ws, x ≤ 0 := fun x hx => hw x (by simp [hx])
    have hsum : (ws.map (fun w => max (-128) w)).sum ≤ 0 := by
      apply sum_nonpos_int
      intro x hx
      obtain ⟨y, hy, rfl⟩ := List.mem_map.mp hx
      have := hwtail y hy
      omega
    have step : wheel_ticks (w :: ws) m = wheel_ticks ws (notify_wheel_immediate w m) := rfl
    rw [step]
    simp only [notify_wheel_immediate, h1, Bool.not_true, Bool.false_eq_true, if_false]
    rw [h2]
    by_cases hp : clamp_to_int8 (0 + w) = 0
    · rw [if_pos hp]
      have hw00 : max (-128) w = 0 := by
        unfold clamp_to_int8 at hp
        omega
      rw [ih {m with glob := {m.glob with pending_w_rel := clamp_to_int8 (0 + w)}}
            h1 hp h3 h4 hwtail]
      simp only [List.map_cons, List.sum_cons, hw00]
      omega
    · rw [if_neg hp]
      have hcc : clamp_to_int8 (m.glob.counter_w + clamp_to_int8 (0 + w))
          = max (-128) (m.glob.counter_w + max (-128) w) := by
        unfold clamp_to_int8
        omega
      have hbound : (move_wheel {m with glob :=
            {m.glob with pending_w_rel := clamp_to_int8 (0 + w)}}).glob.counter_w
          = max (-128) (m.glob.counter_w + max (-128) w) := hcc
      have happ := ih (move_wheel {m with glob :=
          {m.glob with pending_w_rel := clamp_to_int8 (0 + w)}}) h1 rfl
        (by rw [hbound]; omega) (by rw [hbound]; omega) hwtail
      rw [hbound] at happ
      rw [happ]
      simp only [List.map_cons, List.sum_cons]
      omega

/-- Claim C2: with the WheelAPI extension enabled, same-direction wheel ticks
whose sum passes +127 (resp. -128) leave the 8-bit wheel counter saturated at
127 (resp. -128) — it clamps, never wraps; reading the counter through the
wheel-query paths (button index 0xFFFF of functions 0x05/0x06, or BH of
function 0x03) returns the counter and resets it, so a second read before any
new tick returns 0. -/
theorem wheel_clamp_and_reset :
    (∀ (ws : List Int) (m : M),
      m.drv.wheel_api = true → m.glob.pending_w_rel = 0 → m.glob.counter_w = 0 →
      (∀ w ∈ ws, 0 ≤ w) → 127 ≤ ws.sum →
      (wheel_ticks ws m).glob.counter_w = 127) ∧
    (∀ (ws : List Int) (m : M),
      m.drv.wheel_api = true → m.glob.pending_w_rel = 0 → m.glob.counter_w = 0 →
      (∀ w ∈ ws, w ≤ 0) → ws.sum ≤ -128 →
      (wheel_ticks ws m).glob.counter_w = -128) ∧
    (∀ (f cx dx si di es : Nat) (m : M) (env : Env),
      (f = 0x05 ∨ f = 0x06) → m.drv.wheel_api = true →
      ((int33 (Regs.mk f 0xffff cx dx si di es) m env).1.bx
          = signed_to_reg16 m.glob.counter_w) ∧
      ((int33 (Regs.mk f 0xffff cx dx si di es) m env).2.glob.counter_w = 0) ∧
      ((int33 (Regs.mk f 0xffff cx dx si di es)
          ((int33 (Regs.mk f 0xffff cx dx si di es) m env).2) env).1.bx = 0)) ∧
    (∀ (bx cx dx si di es : Nat) (m : M) (env : Env),
      m.drv.wheel_api = true →
      ((int33 (Regs.mk 0x03 bx cx dx si di es) m env).1.bx
          = m.glob.buttons + 256 * signed_to_reg8 m.glob.counter_w) ∧
      ((int33 (Regs.mk 0x03 bx cx dx si di es) m env).2.glob.counter_w = 0)) := by
  refine ⟨?_, ?_, ?_, ?_⟩
  · intro ws m h1 h2 h3 hw hsum
    rw [wheel_ticks_pos ws m h1 h2 (by omega) (by omega) hw, h3]
    have := sum_min_127_ge ws hw
    omega
  · intro ws m h1 h2 h3 hw hsum
    rw [wheel_ticks_neg ws m h1 h2 (by omega) (by omega) hw, h3]
    have := sum_max_neg128_le ws hw
    omega
  · intro f cx dx si di es m env hf h1
    rcases hf with hf | hf <;> subst hf <;>
      refine ⟨?_, ?_, ?_⟩ <;>
      simp [int33, get_reset_wheel_16bit, h1, signed_to_reg16]
  · intro bx cx dx si di es m env h1
    exact ⟨by simp [int33, get_reset_wheel_8bit, h1],
           by simp [int33, get_reset_wheel_8bit, h1]⟩

/-- Witness for C2 at concrete inputs: two ticks of +100 saturate at 127, two
ticks of -100 saturate at -128; with the extension on and counter -3, the
0x05 wheel query returns 65533 (the 16-bit form of -3), clears the counter,
and a second query returns 0. -/
theorem wheel_clamp_and_reset_witness :
    (wheel_ticks [100, 100]
        {sample_m with drv := {sample_drv with wheel_api := true}}).glob.counter_w = 127 ∧
    (wheel_ticks [-100, -100]
        {sample_m with drv := {sample_drv with wheel_api := true}}).glob.counter_w = -128 ∧
    ((int33 (Regs.mk 0x05 0xffff 0 0 0 0 0)
        {sample_m with drv := {sample_drv with wheel_api := true},
                       glob := {sample_glob with counter_w := -3}} env_text).1.bx = 65533) ∧
    ((int33 (Regs.mk 0x05 0xffff 0 0 0 0 0)
        ((int33 (Regs.mk 0x05 0xffff 0 0 0 0 0)
          {sample_m with drv := {sample_drv with wheel_api := true},
                         glob := {sample_glob with counter_w := -3}} env_text).2) env_text).1.bx
        = 0) := by
  have hpos := wheel_clamp_and_reset.1 [100, 100]
    {sample_m with drv := {sample_drv with wheel_api := true}}
    rfl rfl rfl (by decide) (by decide)
  have hneg := wheel_clamp_and_reset.2.1 [-100, -100]
    {sample_m with drv := {sample_drv with wheel_api := true}}
    rfl rfl rfl (by decide) (by decide)
  have hread := wheel_clamp_and_reset.2.2.1 0x05 0 0 0 0 0
    {sample_m with drv := {sample_drv with wheel_api := true},
                   glob := {sample_glob with counter_w := -3}} env_text (Or.inl rfl) rfl
  refine ⟨hpos, hneg, ?_, hread.2.2⟩
  rw [hread.1]
  decide

/-! ## Mickey counter wrap invariant -/

theorem abs_sub_lround_le (q : ℚ) : |q - (lround q : ℚ)| ≤ 1/2 := by
  rw [lround_eq]
  split_ifs with h
  · rw [abs_le]
    constructor
    · have h2 : ((⌊q + 1/2⌋ : ℤ) : ℚ) ≤ q + 1/2 := Int.floor_le _
      linarith
    · have h2 : q + 1/2 < ((⌊q + 1/2⌋ : ℤ) : ℚ) + 1 := Int.lt_floor_add_one _
      linarith
  · rw [abs_le]
    constructor
    · have h2 : ((⌈q - 1/2⌉ : ℤ) : ℚ) < (q - 1/2) + 1 := Int.ceil_lt_add_one _
      linarith
    · have h2 : q - 1/2 ≤ ((⌈q - 1/2⌉ : ℤ) : ℚ) := Int.le_ceil _
      linarith

theorem abs_lt_half_of_lround_eq_zero (q : ℚ) (h : lround q = 0) : |q| < 1/2 := by
  rw [lround_eq] at h
  split_ifs at h with hq
  · obtain ⟨hA, hB⟩ := Int.floor_eq_iff.mp h
    push_cast at hA hB
    rw [abs_of_nonneg hq]
    linarith
  · obtain ⟨hA, hB⟩ := Int.ceil_eq_iff.mp h
    push_cast at hA hB
    rw [abs_of_neg (lt_of_not_le hq)]
    linarith

theorem lround_bound (q : ℚ) (n : ℤ) (hn : 0 ≤ n) (h : |q| ≤ (n : ℚ) + 1/2) :
    -(n + 1) ≤ lround q ∧ lround q ≤ n + 1 := by
  rw [abs_le] at h
  rw [lround_eq]
  split_ifs with hq
  · constructor
    · have h0 : (0 : ℤ) ≤ ⌊q + 1/2⌋ := by
        rw [Int.le_floor]
        push_cast
        linarith
      omega
    · have h1 : ⌊q + 1/2⌋ ≤ ⌊((n + 1 : ℤ) : ℚ)⌋ := by
        apply Int.floor_le_floor
        push_cast
        linarith
      rwa [Int.floor_intCast] at h1
  · constructor
    · have h1 : ⌈((-(n + 1) : ℤ) : ℚ)⌉ ≤ ⌈q - 1/2⌉ := by
        apply Int.ceil_le_ceil
        push_cast
        linarith
      rwa [Int.ceil_intCast] at h1
    · have h0 : ⌈q - 1/2⌉ ≤ (0 : ℤ) := by
        rw [Int.ceil_le]
        push_cast
        linarith [lt_of_not_le hq]
      omega

theorem i16_eq_self (x : Int) (h1 : -32768 ≤ x) (h2 : x ≤ 32767) : i16 x = x := by
  unfold i16
  omega

theorem mickey_update_spec (c : Int) (δ rel : ℚ)
    (hc1 : -32768 ≤ c) (hc2 : c ≤ 32767)
    (hδ : |δ| ≤ 1/2) (hrel : |rel| ≤ 32766) :
    (-32768 ≤ (mickey_update c δ rel).1 ∧ (mickey_update c δ rel).1 ≤ 32767) ∧
    |(mickey_update c δ rel).2| ≤ 1/2 ∧
    ∃ k : ℤ, ((mickey_update c δ rel).1 : ℚ) + (mickey_update c δ rel).2
              = (c : ℚ) + δ + rel + 65536 * k := by
  have habs : |δ + rel| ≤ (32766 : ℚ) + 1/2 := by
    calc |δ + rel| ≤ |δ| + |rel| := abs_add _ _
    _ ≤ 1/2 + 32766 := add_le_add hδ hrel
    _ = (32766 : ℚ) + 1/2 := by ring
  obtain ⟨hL1, hL2⟩ := lround_bound (δ + rel) 32766 (by norm_num) habs
  have hi : i16 (lround (δ + rel)) = lround (δ + rel) := i16_eq_self _ (by omega) (by omega)
  unfold mickey_update
  dsimp only
  rw [hi]
  by_cases hd : lround (δ + rel) = 0
  · rw [if_pos hd]
    have hlt := abs_lt_half_of_lround_eq_zero (δ + rel) hd
    exact ⟨⟨hc1, hc2⟩, le_of_lt hlt, 0, by push_cast; ring⟩
  · rw [if_neg hd]
    have hsub := abs_sub_lround_le (δ + rel)
    dsimp only
    split_ifs with hb1 hb2
    · refine ⟨⟨by omega, by omega⟩, hsub, -1, ?_⟩
      push_cast
      ring
    · refine ⟨⟨by omega, by omega⟩, hsub, 1, ?_⟩
      push_cast
      ring
    · refine ⟨⟨by omega, by omega⟩, hsub, 0, ?_⟩
      push_cast
      ring

theorem consume_spec (moves : List ℚ) :
    ∀ p : Int × ℚ, -32768 ≤ p.1 → p.1 ≤ 32767 → |p.2| ≤ 1/2 →
    (∀ x ∈ moves, |x| ≤ 32766) →
    (-32768 ≤ (consume moves p).1 ∧ (consume moves p).1 ≤ 32767) ∧
    |(consume moves p).2| ≤ 1/2 ∧
    ∃ k : ℤ, ((consume moves p).1 : ℚ) + (consume moves p).2
              = (p.1 : ℚ) + p.2 + moves.sum + 65536 * k := by
  induction moves with
  | nil =>
    intro p h1 h2 h3 _
    exact ⟨⟨h1, h2⟩, h3, 0, by simp [consume]⟩
  | cons mv ms ih =>
    intro p h1 h2 h3 hb
    have hm := hb mv (by simp)
    obtain ⟨⟨a1, a2⟩, a3, k1, hk1⟩ := mickey_update_spec p.1 p.2 mv h1 h2 h3 hm
    have hstep : consume (mv :: ms) p = consume ms (mickey_update p.1 p.2 mv) := rfl
    rw [hstep]
    obtain ⟨⟨b1, b2⟩, b3, k2, hk2⟩ := ih (mickey_update p.1 p.2 mv) a1 a2 a3
      (fun x hx => hb x (by simp [hx]))
    refine ⟨⟨b1, b2⟩, b3, k1 + k2, ?_⟩
    rw [List.sum_cons]
    push_cast at hk1 hk2 ⊢
    linarith

/-- Claim C1: for every sequence of relative moves whose total
mickey-equivalent displacement is the integer V, consuming every move through
the mickey-update routine starting from a zero counter and zero fractional
remainder leaves the 16-bit mickey counter at ((V + 32768) mod 65536) − 32768
— the value depends only on V, not on the chunking into events; the
fractional remainder is carried across calls and overflow wraps at the int16
boundary.  (Each single event is bounded by 32766 mickeys, far above what the
clamped host input can deliver, which keeps the int16 cast inside the routine
exact.) -/
theorem mickey_wrap_invariant :
    ∀ (moves : List ℚ) (V : ℤ),
      (∀ x ∈ moves, |x| ≤ 32766) → moves.sum = (V : ℚ) →
      (consume moves (0, 0)).1 = (V + 32768) % 65536 - 32768 := by
  intro moves V hb hV
  obtain ⟨⟨h1, h2⟩, h3, k, hk⟩ := consume_spec moves (0, 0) (by norm_num) (by norm_num)
    (by simp) hb
  rw [hV] at hk
  have hδint : (consume moves (0, 0)).2
      = ((V + 65536 * k - (consume moves (0, 0)).1 : ℤ) : ℚ) := by
    push_cast
    push_cast at hk
    linarith
  have hzero : V + 65536 * k - (consume moves (0, 0)).1 = 0 := by
    rw [hδint, ← Int.cast_abs] at h3
    have hlt : ((|V + 65536 * k - (consume moves (0, 0)).1| : ℤ) : ℚ) < 1 := by
      calc ((|V + 65536 * k - (consume moves (0, 0)).1| : ℤ) : ℚ) ≤ 1/2 := h3
      _ < 1 := by norm_num
    have h6 : |V + 65536 * k - (consume moves (0, 0)).1| < 1 := by exact_mod_cast hlt
    have h7 := abs_lt.mp h6
    omega
  omega

/-- Witness for C1 at a concrete input: two moves of 20000 mickeys; the
total 40000 wraps to -25536. -/
theorem mickey_wrap_invariant_witness :
    (consume [(20000 : ℚ), 20000] (0, 0)).1 = -25536 := by
  have h := mickey_wrap_invariant [(20000 : ℚ), 20000] 40000
    (by
      intro x hx
      simp only [List.mem_cons, List.not_mem_nil, or_false] at hx
      rcases hx with h | h <;> rw [h] <;> norm_num)
    (by norm_num)
  rw [h]
  decide

/-! ## Set position (function 0x04) -/

theorem rclamp_eq_self (v lo hi : ℚ) (h1 : lo ≤ v) (h2 : v ≤ hi) : rclamp v lo hi = v := by
  unfold rclamp
  rw [if_neg (not_lt.mpr h1), if_neg (not_lt.mpr h2)]

theorem reg_to_signed16_of_lt (x : Nat) (h : x < 32768) : reg_to_signed16 x = (x : Int) := by
  unfold reg_to_signed16
  rw [if_neg (by omega)]

/-- Counterexample for C6: with the position at -5 (range -10..100), reading
the position through function 0x03 yields CX = 65531, and writing that same
value back through function 0x04 moves the internal position (to 100): the
signed interpretation of CX (-5) differs from the promoted unsigned masked
position (65531), so the axis is overwritten with 65531.0 and then clamped.
This refutes "reading the position via 0x03 and writing the same value back
via 0x04 never changes the internal position" as universally stated. -/
theorem set_position_round_trip_counterexample :
    get_pos_x sample_m_neg = 65531 ∧
    (int33 (Regs.mk 0x04 0 (get_pos_x sample_m_neg) (get_pos_y sample_m_neg) 0 0 0)
        sample_m_neg env_text).2.glob.pos_x = 100 ∧
    (int33 (Regs.mk 0x04 0 (get_pos_x sample_m_neg) (get_pos_y sample_m_neg) 0 0 0)
        sample_m_neg env_text).2.glob.pos_x ≠ sample_m_neg.glob.pos_x := by
  refine ⟨by decide, ?_, ?_⟩ <;>
    · rw [show (int33 (Regs.mk 0x04 0 (get_pos_x sample_m_neg) (get_pos_y sample_m_neg) 0 0 0)
          sample_m_neg env_text).2.glob.pos_x
          = (limit_coordinates {sample_m_neg with glob := {sample_m_neg.glob with
              pos_x := ((get_pos_x sample_m_neg : Nat) : ℚ)}}).glob.pos_x from by
            simp only [int33]
            rw [draw_cursor_glob]
            rw [if_neg (by decide), if_pos (by decide)]]
      decide

/-- Claim C6 (amended): function 0x04 overwrites an axis only when the
signed register value differs from the (promoted) rounded masked position,
then clamps the position and redraws; consequently a 0x03-read followed by a
0x04-write of the same values leaves the internal position unchanged,
PROVIDED the rounded masked position on each axis is below 0x8000 and the
position is within the configured range.  (Without the proviso the claim
fails: see the counterexample.) -/
theorem set_position_axis_update :
    ∀ (bx cx dy si di es : Nat) (m : M) (env : Env),
      ((int33 (Regs.mk 0x04 bx cx dy si di es) m env).2
        = draw_cursor (limit_coordinates {m with glob :=
            {m.glob with
              pos_x := if reg_to_signed16 cx ≠ (get_pos_x m : Int)
                       then (cx : ℚ) else m.glob.pos_x,
              pos_y := if reg_to_signed16 dy ≠ (get_pos_y m : Int)
                       then (dy : ℚ) else m.glob.pos_y}}) env) ∧
      (get_pos_x m < 32768 → get_pos_y m < 32768 →
       (m.drv.minpos_x : ℚ) ≤ m.glob.pos_x → m.glob.pos_x ≤ (m.drv.maxpos_x : ℚ) →
       (m.drv.minpos_y : ℚ) ≤ m.glob.pos_y → m.glob.pos_y ≤ (m.drv.maxpos_y : ℚ) →
       ((int33 (Regs.mk 0x04 bx (get_pos_x m) (get_pos_y m) si di es) m env).2.glob.pos_x
          = m.glob.pos_x ∧
        (int33 (Regs.mk 0x04 bx (get_pos_x m) (get_pos_y m) si di es) m env).2.glob.pos_y
          = m.glob.pos_y)) := by
  intro bx cx dy si di es m env
  have key : ∀ rx ry : Nat,
      (int33 (Regs.mk 0x04 bx rx ry si di es) m env).2
        = draw_cursor (limit_coordinates {m with glob :=
            {m.glob with
              pos_x := if reg_to_signed16 rx ≠ (get_pos_x m : Int)
                       then (rx : ℚ) else m.glob.pos_x,
              pos_y := if reg_to_signed16 ry ≠ (get_pos_y m : Int)
                       then (ry : ℚ) else m.glob.pos_y}}) env := by
    intro rx ry
    simp only [int33]
    split_ifs <;> rfl
  refine ⟨key cx dy, ?_⟩
  intro hx32 hy32 hminx hmaxx hminy hmaxy
  have ex : reg_to_signed16 (get_pos_x m) = (get_pos_x m : Int) :=
    reg_to_signed16_of_lt _ hx32
  have ey : reg_to_signed16 (get_pos_y m) = (get_pos_y m : Int) :=
    reg_to_signed16_of_lt _ hy32
  rw [key (get_pos_x m) (get_pos_y m)]
  rw [draw_cursor_glob]
  unfold limit_coordinates
  dsimp only
  rw [ex, ey]
  simp only [ne_eq, not_true_eq_false, if_false]
  exact ⟨rclamp_eq_self _ _ _ hminx hmaxx, rclamp_eq_self _ _ _ hminy hmaxy⟩

/-- Witness for C6 (amended) at a concrete input: the sample state at
(100, 100) in range 0..639 x 0..199 is unchanged by the read/write round
trip. -/
theorem set_position_axis_update_witness :
    (int33 (Regs.mk 0x04 0 (get_pos_x sample_m) (get_pos_y sample_m) 0 0 0)
        sample_m env_text).2.glob.pos_x = sample_m.glob.pos_x ∧
    (int33 (Regs.mk 0x04 0 (get_pos_x sample_m) (get_pos_y sample_m) 0 0 0)
        sample_m env_text).2.glob.pos_y = sample_m.glob.pos_y := by
  have h := (set_position_axis_update 0 (get_pos_x sample_m) (get_pos_y sample_m) 0 0 0
      sample_m env_text).2
    (by decide) (by decide) (by norm_num [sample_m, sample_glob, sample_drv])
    (by norm_num [sample_m, sample_glob, sample_drv])
    (by norm_num [sample_m, sample_glob, sample_drv])
    (by norm_num [sample_m, sample_glob, sample_drv])
  exact h

/-! ## Update-exclusion region -/

/-- Counterexample for C9: in graphics mode the drawer ignores the
update-exclusion region entirely (the region check is commented out in the
source): with the exclusion rectangle covering the whole screen and the
cursor inside it, one graphics draw call still saves the background — the
saved-background flag becomes true. -/
theorem update_exclusion_graphics_counterexample :
    ((get_pos_y sample_m_excl : Int) ≤ sample_m_excl.drv.update_region_y1 ∧
     (get_pos_y sample_m_excl : Int) ≥ sample_m_excl.drv.update_region_y0 ∧
     (get_pos_x sample_m_excl : Int) ≤ sample_m_excl.drv.update_region_x1 ∧
     (get_pos_x sample_m_excl : Int) ≥ sample_m_excl.drv.update_region_x0) ∧
    sample_m_excl.drv.background.enabled = false ∧
    (draw_cursor sample_m_excl env_gfx).drv.background.enabled = true := by
  refine ⟨by decide, rfl, ?_⟩
  decide

/-- Claim C9 (amended): in TEXT mode, when the cursor position lies inside
the update-exclusion region and no background is currently saved, the cursor
drawer is a no-op: any number of repeated draw calls leaves the state
unchanged and the saved-background flag never becomes true.  (In graphics
mode the source ignores the region — see the counterexample.) -/
theorem text_update_exclusion_noop :
    ∀ (m : M) (env : Env) (n : Nat),
      env.is_text = true →
      m.drv.background.enabled = false →
      ((get_pos_y m : Int) ≤ m.drv.update_region_y1 ∧
       (get_pos_y m : Int) ≥ m.drv.update_region_y0 ∧
       (get_pos_x m : Int) ≤ m.drv.update_region_x1 ∧
       (get_pos_x m : Int) ≥ m.drv.update_region_x0) →
      draw_cursor m env = m ∧
      (fun t => draw_cursor t env)^[n] m = m ∧
      ((fun t => draw_cursor t env)^[n] m).drv.background.enabled = false := by
  intro m env n ht hbg hreg
  have hrt : restore_cursor_background_text m = m := by
    unfold restore_cursor_background_text
    by_cases hh : m.drv.hidden ≠ 0 ∨ m.drv.inhibit_draw
    · rw [if_pos hh]
    · rw [if_neg hh, if_neg (by simp [hbg])]
  have hone : draw_cursor m env = m := by
    unfold draw_cursor
    by_cases hh : m.drv.hidden ≠ 0 ∨ m.drv.inhibit_draw
    · rw [if_pos hh]
    · rw [if_neg hh, if_pos ht]
      unfold draw_cursor_text
      dsimp only
      rw [hrt, if_pos hreg]
  have hiter : ∀ k : Nat, (fun t => draw_cursor t env)^[k] m = m := by
    intro k
    induction k with
    | zero => rfl
    | succ j ih =>
      rw [Function.iterate_succ_apply]
      simp only [hone]
      exact ih
  refine ⟨hone, hiter n, ?_⟩
  rw [hiter n]
  exact hbg

/-- Witness for C9 (amended) at a concrete input: three text-mode draw calls
on the sample state with a full-screen exclusion region change nothing. -/
theorem text_update_exclusion_noop_witness :
    draw_cursor sample_m_excl env_text = sample_m_excl ∧
    (fun t => draw_cursor t env_text)^[3] sample_m_excl = sample_m_excl ∧
    ((fun t => draw_cursor t env_text)^[3] sample_m_excl).drv.background.enabled = false :=
  text_update_exclusion_noop sample_m_excl env_text 3 rfl rfl (by decide)

end MouseDos
